import Mathlib

/-!
# wshowkeys: the privileged device broker (`devmgr.c`) and its caller (`main.c`)

A shallow embedding of the broker protocol of wshowkeys.

* C strings are lists of byte values (`Nat`); the string held in a `char`
  buffer is the run of bytes before the first NUL (`cstr`).
* System calls are not executed: their results are parameters (oracles) and
  every call the code makes is recorded, in program order, in a trace of
  events (`Ev`).
* The `do ... while (ret < 0 && errno == EINTR)` loops around `sendmsg` and
  `recvmsg` are taken as one event carrying the final result.
* `int` is 32 bits wide; the one arithmetic operation on it, the negation in
  `devmgr_open`, wraps (`wrap32`).
-/

namespace Wshowkeys

/-! ## C strings and `strstr` -/

/-- Bytes of a Lean string, as the `char` values of a C string literal. -/
def bytes (s : String) : List Nat := s.toList.map Char.toNat

/-- The C string held in a `char` buffer: the bytes before the first NUL. -/
def cstr (buf : List Nat) : List Nat := buf.takeWhile (fun b => b != 0)

/-- The libc function `strstr(hay, needle)` on string contents: the offset of
the first occurrence of `needle` in `hay`, or `none` for a NULL result. An
empty needle is found at offset 0. -/
def strstr : List Nat → List Nat → Option Nat
  | [], needle => if needle.isPrefixOf [] then some 0 else none
  | h :: t, needle =>
    if needle.isPrefixOf (h :: t) then some 0
    else (strstr t needle).map (fun i => i + 1)

/-- Two-complement wrap of an integer to the range of a 32-bit `int`. -/
def wrap32 (x : Int) : Int := (x + 2147483648) % 4294967296 - 2147483648

/-! ## Messages (`enum msg_type`, `struct msg`) -/

/-- Enumerator `MSG_OPEN` of `enum msg_type`. -/
def MSG_OPEN : Int := 0

/-- Enumerator `MSG_END` of `enum msg_type`. -/
def MSG_END : Int := 1

/-- The request record `struct msg`: a discriminant and the `path` buffer. -/
structure msg where
  msg_type : Int
  path : List Nat
deriving DecidableEq, Repr

/-- What a `send_msg` call passes as `buf`: NULL, the broker's `int ret`, or
the client's `struct msg`. -/
inductive Payload
  | nothing
  | code (ret : Int)
  | request (m : msg)
deriving DecidableEq, Repr

/-- Flags of the `open` call made by the broker. -/
inductive OFlag
  | O_RDONLY | O_CLOEXEC | O_NOCTTY | O_NONBLOCK
deriving DecidableEq, Repr

/-- System calls recorded in a trace. `recvmsg` records the returned length
and the descriptor found in the first control header, if any (the kernel has
then installed that descriptor in the receiving process). `sendmsg` records
the attached descriptor, if any, and the payload. `sys_open` records the path,
the flags and the returned descriptor. -/
inductive Ev
  | recvmsg (ret : Int) (cmsg : Option Int)
  | sendmsg (fd : Option Int) (buf : Payload)
  | sys_open (path : List Nat) (flags : List OFlag) (fd : Int)
  | close (fd : Int)
deriving DecidableEq, Repr

/-- Result of one `recvmsg` system call (after the EINTR retries): the return
value, the data of the first control header if there is one, and the value
the data buffer holds if bytes were stored into it (`none`: untouched). -/
structure Recvmsg (β : Type) where
  ret : Int
  cmsg : Option Int
  data : Option β

/-- The function `send_msg(sock, fd, buf, buf_len)`: one `sendmsg`, with a
control header carrying `fd` exactly when `fd >= 0`. -/
def send_msg (fd : Int) (buf : Payload) : Ev :=
  Ev.sendmsg (if fd ≥ 0 then some fd else none) buf

/-- The function `recv_msg(sock, &fd, &buf, sizeof buf)` with both out
pointers non-NULL: returns `ret`, stores the first control header in `fd`, or
`-1` when there is none, and leaves in `buf` what `recvmsg` stored there. -/
def recv_msg {β : Type} (r : Recvmsg β) (buf : β) : Int × Int × β :=
  (r.ret, r.cmsg.getD (-1), r.data.getD buf)

/-! ## The broker: `devmgr_run` -/

/-- How one pass through the `switch` of `devmgr_run` leaves the loop: with
the value of `running`, or through `exit(status)`. -/
inductive Ctl
  | next (running : Bool)
  | exit (status : Int)
deriving DecidableEq, Repr

/-- The flags `O_RDONLY|O_CLOEXEC|O_NOCTTY|O_NONBLOCK`. -/
def open_flags : List OFlag :=
  [OFlag.O_RDONLY, OFlag.O_CLOEXEC, OFlag.O_NOCTTY, OFlag.O_NONBLOCK]

/-- The `switch (msg.msg_type)` of `devmgr_run`. `os_open p` is the result of
`open(p, ...)` entered with `errno = 0`: the returned descriptor and the value
of `errno` afterwards. -/
def handle (devpath : List Nat) (os_open : List Nat → Int × Int) (m : msg) :
    List Ev × Ctl :=
  if m.msg_type = MSG_OPEN then
    if strstr (cstr m.path) (cstr devpath) ≠ some 0 then
      ([], Ctl.exit 1)
    else
      let fd := (os_open (cstr m.path)).1
      let ret := (os_open (cstr m.path)).2
      ([Ev.sys_open (cstr m.path) open_flags fd,
        send_msg (if ret ≠ 0 then -1 else fd) (Payload.code ret)]
        ++ (if fd ≥ 0 then [Ev.close fd] else []), Ctl.next true)
  else if m.msg_type = MSG_END then
    ([send_msg (-1) Payload.nothing], Ctl.next false)
  else
    ([], Ctl.next true)

/-- Outcome of running a process on a finite input: the system calls made and
the exit status, `none` when the process is still alive, blocked in its next
`recvmsg`. -/
structure Run where
  trace : List Ev
  status : Option Int
deriving DecidableEq, Repr

/-- The loop `while (running && recv_msg(...) > 0) { switch ... } exit(0)` of
`devmgr_run`, on the list of results of its successive `recvmsg` calls. The
buffer `m` is declared outside the loop and keeps its content between
iterations. -/
def devmgr_loop (devpath : List Nat) (os_open : List Nat → Int × Int) :
    List (Recvmsg msg) → Bool → msg → Run
  | _, false, _ => ⟨[], some 0⟩
  | [], true, _ => ⟨[], none⟩
  | r :: rest, true, m =>
    if (recv_msg r m).1 > 0 then
      match handle devpath os_open (recv_msg r m).2.2 with
      | (evs, Ctl.exit n) => ⟨Ev.recvmsg r.ret r.cmsg :: evs, some n⟩
      | (evs, Ctl.next running) =>
        let k := devmgr_loop devpath os_open rest running (recv_msg r m).2.2
        ⟨Ev.recvmsg r.ret r.cmsg :: (evs ++ k.trace), k.status⟩
    else
      ⟨[Ev.recvmsg r.ret r.cmsg], some 0⟩

/-- The function `devmgr_run(sockfd, devpath)`: `running = true`, the buffer
`msg0` uninitialised, then the loop. -/
def devmgr_run (devpath : List Nat) (os_open : List Nat → Int × Int)
    (msg0 : msg) (inputs : List (Recvmsg msg)) : Run :=
  devmgr_loop devpath os_open inputs true msg0

/-- The broker is Serving when it has not exited. -/
def Serving (r : Run) : Prop := r.status = none

/-- The paths passed to `open` in a trace. -/
def opened : List Ev → List (List Nat)
  | [] => []
  | Ev.sys_open p _ _ :: t => p :: opened t
  | _ :: t => opened t

/-- The responses sent in a trace: attached descriptor and payload. -/
def sent : List Ev → List (Option Int × Payload)
  | [] => []
  | Ev.sendmsg fd b :: t => (fd, b) :: sent t
  | _ :: t => sent t

/-- The descriptors a process holds after a trace, starting from `acc`: those
installed by `recvmsg` or returned by a successful `open`, minus those it
closed. -/
def held_after : List Int → List Ev → List Int
  | acc, [] => acc
  | acc, Ev.recvmsg _ (some fd) :: t => held_after (fd :: acc) t
  | acc, Ev.sys_open _ _ fd :: t => held_after (if fd ≥ 0 then fd :: acc else acc) t
  | acc, Ev.close fd :: t => held_after (acc.erase fd) t
  | acc, _ :: t => held_after acc t

/-- The buffer `msg` of `devmgr_run` after a list of receives. -/
def buf_after (inputs : List (Recvmsg msg)) (m : msg) : msg :=
  inputs.foldl (fun b r => (recv_msg r b).2.2) m

/-- POSIX behaviour of `open` entered with `errno = 0`: a descriptor `>= 0`
with `errno` untouched, or `-1` with `errno` set to a non-zero code. -/
def PosixOpen (res : Int × Int) : Prop :=
  (0 ≤ res.1 ∧ res.2 = 0) ∨ (res.1 = -1 ∧ res.2 ≠ 0)

/-- The limit of `open` on the length of a pathname: a pathname of `PATH_MAX`
or more bytes is refused (`ENAMETOOLONG`), so `open` returns no descriptor
for it. -/
def PathLimit (PATH_MAX : Nat) (os_open : List Nat → Int × Int) : Prop :=
  ∀ q : List Nat, PATH_MAX ≤ q.length → (os_open q).1 < 0

/-! ## The client: `devmgr_open` -/

/-- The `path` buffer of the request built by `devmgr_open`: the initialiser
`{ .msg_type = MSG_OPEN }` zero-fills it and `snprintf(msg.path,
sizeof(msg.path), "%s", path)` stores at most `PATH_MAX - 1` bytes of the
string, followed by NUL. -/
def snprintf_path (PATH_MAX : Nat) (path : List Nat) : List Nat :=
  (cstr path).take (PATH_MAX - 1)
    ++ List.replicate (PATH_MAX - ((cstr path).take (PATH_MAX - 1)).length) 0

/-- The request `devmgr_open` sends for `path`. -/
def open_request (PATH_MAX : Nat) (path : List Nat) : msg :=
  ⟨MSG_OPEN, snprintf_path PATH_MAX path⟩

/-- State of the locals `fd`, `err`, `ret` of `devmgr_open` when its loop
ends, with the receives made. -/
structure Recvd where
  trace : List Ev
  fd : Int
  err : Int
  ret : Int
deriving DecidableEq, Repr

/-- The loop `do { ret = recv_msg(sockfd, &fd, &err, sizeof(err)); }
while (ret == 0 && retry++ < 3);` entered with the given value of `retry`.
Here `chan i` is the result of the receive made when `retry = i`. -/
def recv_retry (chan : Nat → Recvmsg Int) (retry : Nat) (err : Int) : Recvd :=
  if (recv_msg (chan retry) err).1 = 0 ∧ retry < 3 then
    let k := recv_retry chan (retry + 1) (recv_msg (chan retry) err).2.2
    { k with trace := Ev.recvmsg (chan retry).ret (chan retry).cmsg :: k.trace }
  else
    ⟨[Ev.recvmsg (chan retry).ret (chan retry).cmsg],
      (recv_msg (chan retry) err).2.1, (recv_msg (chan retry) err).2.2,
      (recv_msg (chan retry) err).1⟩
termination_by 3 - retry

/-- Outcome of a client call: the system calls made and the value returned. -/
structure Call where
  trace : List Ev
  ret : Int
deriving DecidableEq, Repr

/-- The function `devmgr_open(sockfd, path)`. The local `err` is not
initialised: `err0` is whatever its stack slot holds on entry. The result is
`err ? -err : fd`. -/
def devmgr_open (PATH_MAX : Nat) (path : List Nat) (chan : Nat → Recvmsg Int)
    (err0 : Int) : Call :=
  let r := recv_retry chan 0 err0
  ⟨send_msg (-1) (Payload.request (open_request PATH_MAX path)) :: r.trace,
    if r.err ≠ 0 then wrap32 (-r.err) else r.fd⟩

/-! ## One request and its response over the channel -/

/-- What the client's `i`-th receive yields when the broker has sent the
responses `out`: the `i`-th response, 4 bytes holding its code and its
descriptor installed under the number `install fd` (the kernel installs a
passed descriptor under a number `>= 0`, hence `Nat`); 0 bytes for a message
without a code; end of file (`0`, nothing stored) when there is no `i`-th
response. -/
def deliver (install : Int → Nat) (out : List (Option Int × Payload)) (i : Nat) :
    Recvmsg Int :=
  match out.get? i with
  | some (fd, Payload.code c) => ⟨4, fd.map (fun d => (install d : Int)), some c⟩
  | some (fd, _) => ⟨0, fd.map (fun d => (install d : Int)), none⟩
  | none => ⟨0, none, none⟩

/-- One `devmgr_open(path)` against a broker that is Serving: the broker
receives the whole request (`sizeof(struct msg) = 4 + PATH_MAX` bytes, no
descriptor) and nothing more; the client receives what the broker sent. -/
def exchange (PATH_MAX : Nat) (devpath : List Nat) (os_open : List Nat → Int × Int)
    (install : Int → Nat) (msg0 : msg) (err0 : Int) (path : List Nat) : Call × Run :=
  let broker := devmgr_run devpath os_open msg0
    [⟨((4 + PATH_MAX : Nat) : Int), none, some (open_request PATH_MAX path)⟩]
  (devmgr_open PATH_MAX path (deliver install (sent broker.trace)) err0, broker)

/-! ## The supervisor: `devmgr_start` -/

/-- Results of the system calls `devmgr_start` makes, one field per call
site: `setgid` is the result of `setgid(getgid())`, `setuid` of
`setuid(getuid())`, `setuid_root` of `setuid(0)`; `sock0`, `sock1` are the
descriptors `socketpair` stores on success. -/
structure StartEnv where
  geteuid : Int
  socketpair : Int
  sock0 : Int
  sock1 : Int
  fork : Int
  getgid : Int
  setgid : Int
  getuid : Int
  setuid : Int
  setuid_root : Int
deriving DecidableEq, Repr

/-- The diagnostics `devmgr_start` prints on `stderr`. -/
inductive Diag
  | needs_setuid | socketpair | fork | setgid | setuid | failed_to_drop_root
deriving DecidableEq, Repr

/-- Calls made by `devmgr_start`, with arguments and, for the identity
changes, the result. `devmgr_run` marks the child entering the broker loop. -/
inductive SEv
  | geteuid
  | fprintf (d : Diag)
  | socketpair
  | fork
  | close (fd : Int)
  | getgid
  | setgid (gid : Int) (ret : Int)
  | getuid
  | setuid (uid : Int) (ret : Int)
  | devmgr_run (sockfd : Int)
deriving DecidableEq, Repr

/-- Outcome of `devmgr_start(&fd, &pid, devpath)`: the calls made, the value
returned (`none` in the child, where `devmgr_run` does not return) and the
content of `*fd` and `*pid` afterwards. -/
structure Started where
  trace : List SEv
  ret : Option Int
  fd : Int
  pid : Int
deriving DecidableEq, Repr

/-- The function `devmgr_start`; `fd` and `pid` are the values `*fd` and
`*pid` hold on entry. -/
def devmgr_start (env : StartEnv) (fd pid : Int) : Started :=
  if env.geteuid ≠ 0 then
    ⟨[SEv.geteuid, SEv.fprintf Diag.needs_setuid], some 1, fd, pid⟩
  else if env.socketpair < 0 then
    ⟨[SEv.geteuid, SEv.socketpair, SEv.fprintf Diag.socketpair], some (-1), fd, pid⟩
  else if env.fork < 0 then
    ⟨[SEv.geteuid, SEv.socketpair, SEv.fork, SEv.fprintf Diag.fork,
      SEv.close env.sock0, SEv.close env.sock1], some 1, fd, pid⟩
  else if env.fork = 0 then
    ⟨[SEv.geteuid, SEv.socketpair, SEv.fork, SEv.close env.sock0,
      SEv.devmgr_run env.sock1], none, fd, pid⟩
  else if env.setgid ≠ 0 then
    ⟨[SEv.geteuid, SEv.socketpair, SEv.fork, SEv.close env.sock1,
      SEv.getgid, SEv.setgid env.getgid env.setgid, SEv.fprintf Diag.setgid],
      some 1, env.sock0, env.fork⟩
  else if env.setuid ≠ 0 then
    ⟨[SEv.geteuid, SEv.socketpair, SEv.fork, SEv.close env.sock1,
      SEv.getgid, SEv.setgid env.getgid env.setgid,
      SEv.getuid, SEv.setuid env.getuid env.setuid, SEv.fprintf Diag.setuid],
      some 1, env.sock0, env.fork⟩
  else if env.setuid_root ≠ -1 then
    ⟨[SEv.geteuid, SEv.socketpair, SEv.fork, SEv.close env.sock1,
      SEv.getgid, SEv.setgid env.getgid env.setgid,
      SEv.getuid, SEv.setuid env.getuid env.setuid,
      SEv.setuid 0 env.setuid_root, SEv.fprintf Diag.failed_to_drop_root],
      some 1, env.sock0, env.fork⟩
  else
    ⟨[SEv.geteuid, SEv.socketpair, SEv.fork, SEv.close env.sock1,
      SEv.getgid, SEv.setgid env.getgid env.setgid,
      SEv.getuid, SEv.setuid env.getuid env.setuid,
      SEv.setuid 0 env.setuid_root], some 0, env.sock0, env.fork⟩

/-! ## Start of `main` -/

/-- How the `getopt` loop of `main` ends: all options parsed, `return 0` for
`-o`, or `return 1` for an unknown option. -/
inductive Opts
  | parsed | unimplemented | usage
deriving DecidableEq, Repr

/-- Where `main` gets to, from its first statement to the device setup:
`broker` in the forked child; `returned status` when it returns before
`udev_new()`; `device_setup devmgr` when it reaches `udev_new()` and
`libinput_udev_create_context(&libinput_impl, &state.devmgr, ...)`, through
which libinput calls `devmgr_open(state.devmgr, path)`. -/
inductive MainStep
  | broker
  | returned (status : Int)
  | device_setup (devmgr : Int)
deriving DecidableEq, Repr

/-- The start of `main`: `struct wsk_state state = { 0 }`, then
`if (devmgr_start(&state.devmgr, &state.devmgr_pid, INPUTDEVPATH) > 0)
return 1;`, then the option loop, then the device setup. -/
def main_start (env : StartEnv) (opts : Opts) : MainStep :=
  match (devmgr_start env 0 0).ret with
  | none => MainStep.broker
  | some r =>
    if r > 0 then MainStep.returned 1
    else
      match opts with
      | Opts.unimplemented => MainStep.returned 0
      | Opts.usage => MainStep.returned 1
      | Opts.parsed => MainStep.device_setup (devmgr_start env 0 0).fd

/-- The outcomes of `devmgr_start` that are fatal startup errors: not
privileged, `socketpair` failure, `fork` failure, and failure of one of the
three privilege-drop steps. -/
def fatal_startup (env : StartEnv) : Prop :=
  env.geteuid ≠ 0 ∨ env.socketpair < 0 ∨ env.fork < 0 ∨
    (0 < env.fork ∧ (env.setgid ≠ 0 ∨ env.setuid ≠ 0 ∨ env.setuid_root ≠ -1))

instance (env : StartEnv) : Decidable (fatal_startup env) := by
  unfold fatal_startup; infer_instance

instance (res : Int × Int) : Decidable (PosixOpen res) := by
  unfold PosixOpen; infer_instance

instance (r : Run) : Decidable (Serving r) := by
  unfold Serving; infer_instance

/-! ## Counting receives and descriptors -/

/-- The number of `recvmsg` calls in a trace. -/
def receives : List Ev → Nat
  | [] => 0
  | Ev.recvmsg _ _ :: t => receives t + 1
  | _ :: t => receives t

/-- The descriptors that arrived in the control header of the `recvmsg` calls
of a trace, in order of arrival. -/
def received : List Ev → List Int
  | [] => []
  | Ev.recvmsg _ (some fd) :: t => fd :: received t
  | _ :: t => received t

/-! ## The client: `devmgr_finish` -/

/-- The request `devmgr_finish` sends: `struct msg msg = { .msg_type =
MSG_END }`, the `path` buffer zero-filled. -/
def end_request (PATH_MAX : Nat) : msg := ⟨MSG_END, List.replicate PATH_MAX 0⟩

/-- The call `recv_msg(sock, NULL, NULL, 0)`: `recvmsg` gets neither a data
buffer nor a control buffer, and only its return value comes back. -/
def recv_msg_null {β : Type} (r : Recvmsg β) : Int := r.ret

/-- Calls made by `devmgr_finish`: the channel and descriptor calls of `Ev`,
and `waitpid(pid, NULL, 0)`. -/
inductive CEv
  | io (e : Ev)
  | waitpid (pid : Int)
deriving DecidableEq, Repr

/-- The function `devmgr_finish(sock, pid)`, given the result `r` of its one
`recvmsg`; it returns nothing, the outcome is the list of calls it makes. -/
def devmgr_finish {β : Type} (PATH_MAX : Nat) (sock pid : Int) (r : Recvmsg β) :
    List CEv :=
  [CEv.io (send_msg (-1) (Payload.request (end_request PATH_MAX))),
   CEv.io (Ev.recvmsg (recv_msg_null r) none),
   CEv.waitpid pid,
   CEv.io (Ev.close sock)]

/-! ## The event loop of `main`: clearing old keys -/

/-- The record `struct timespec`. -/
structure timespec where
  tv_sec : Int
  tv_nsec : Int
deriving DecidableEq, Repr

/-- Two-complement wrap of an integer to the range of the 64-bit `time_t`. -/
def wrap64 (x : Int) : Int :=
  (x + 9223372036854775808) % 18446744073709551616 - 9223372036854775808

/-- The fields of `struct wsk_state` used when old keys are cleared: the list
`keys` (one keysym per keypress), `last_key` and `timeout`. -/
structure wsk_state where
  keys : List Nat
  last_key : timespec
  timeout : Int
deriving DecidableEq, Repr

/-- The test `now.tv_sec >= state.last_key.tv_sec + state.timeout &&
now.tv_nsec >= state.last_key.tv_nsec` of the event loop. -/
def keys_expired (state : wsk_state) (now : timespec) : Bool :=
  decide (now.tv_sec ≥ wrap64 (state.last_key.tv_sec + state.timeout)
    ∧ now.tv_nsec ≥ state.last_key.tv_nsec)

/-- The block under `/* Clear out old keys */` in the event loop of `main`:
when the test holds every keypress is freed and `state.keys = NULL`. -/
def clear_old_keys (state : wsk_state) (now : timespec) : wsk_state :=
  if keys_expired state now then { state with keys := [] } else state

/-- Time from `last` to `now` in nanoseconds. -/
def elapsed_ns (last now : timespec) : Int :=
  (now.tv_sec - last.tv_sec) * 1000000000 + (now.tv_nsec - last.tv_nsec)

/-! ## Concrete inputs used below -/

/-- A file system with `PATH_MAX = 4096` in which `/dev/input/event3` can be
opened: a pathname of 4096 or more bytes fails with `errno = 36`
(`ENAMETOOLONG`), every other pathname with `errno = 2` (`ENOENT`). -/
def open_event3 (q : List Nat) : Int × Int :=
  if 4096 ≤ q.length then (-1, 36)
  else if q = bytes "/dev/input/event3" then (3, 0)
  else (-1, 2)

/-- An environment in which every call of `devmgr_start` goes well for an
unprivileged user 1000 running the set-uid-root binary. -/
def env_dropped : StartEnv :=
  { geteuid := 0, socketpair := 0, sock0 := 3, sock1 := 4, fork := 4242,
    getgid := 1000, setgid := 0, getuid := 1000, setuid := 0, setuid_root := -1 }

/-- An environment in which root itself runs the program: `setuid(0)`
succeeds after the drop. -/
def env_still_root : StartEnv :=
  { geteuid := 0, socketpair := 0, sock0 := 3, sock1 := 4, fork := 4242,
    getgid := 0, setgid := 0, getuid := 0, setuid := 0, setuid_root := 0 }

/-- An environment in which `socketpair` fails. -/
def env_no_socketpair : StartEnv :=
  { geteuid := 0, socketpair := -1, sock0 := 0, sock1 := 0, fork := 4242,
    getgid := 1000, setgid := 0, getuid := 1000, setuid := 0, setuid_root := -1 }

/-- An environment in which the caller is not privileged. -/
def env_unprivileged : StartEnv :=
  { geteuid := 1000, socketpair := 0, sock0 := 3, sock1 := 4, fork := 4242,
    getgid := 1000, setgid := 0, getuid := 1000, setuid := 0, setuid_root := -1 }

/-! ## Auxiliary lemmas -/

theorem strstr_zero_iff (hay needle : List Nat) :
    strstr hay needle = some 0 ↔ needle <+: hay := by
  cases hay with
  | nil => simp [strstr]
  | cons h t =>
    unfold strstr
    by_cases hp : needle.isPrefixOf (h :: t) = true
    · simp [hp, List.isPrefixOf_iff_prefix.mp hp]
    · have hn : ¬ needle <+: h :: t := fun hh => hp (List.isPrefixOf_iff_prefix.mpr hh)
      simp [hp, hn]

theorem sent_append (a b : List Ev) : sent (a ++ b) = sent a ++ sent b := by
  induction a with
  | nil => rfl
  | cons e t ih => cases e <;> simp [sent, ih]

theorem opened_append (a b : List Ev) : opened (a ++ b) = opened a ++ opened b := by
  induction a with
  | nil => rfl
  | cons e t ih => cases e <;> simp [opened, ih]

theorem devmgr_loop_stopped (devpath : List Nat) (os_open : List Nat → Int × Int)
    (inputs : List (Recvmsg msg)) (m : msg) :
    devmgr_loop devpath os_open inputs false m = ⟨[], some 0⟩ := by
  cases inputs <;> rfl

theorem devmgr_loop_append (devpath : List Nat) (os_open : List Nat → Int × Int)
    (pre suf : List (Recvmsg msg)) :
    ∀ m : msg, (devmgr_loop devpath os_open pre true m).status = none →
      devmgr_loop devpath os_open (pre ++ suf) true m =
        ⟨(devmgr_loop devpath os_open pre true m).trace
            ++ (devmgr_loop devpath os_open suf true (buf_after pre m)).trace,
          (devmgr_loop devpath os_open suf true (buf_after pre m)).status⟩ := by
  induction pre with
  | nil => intro m _; simp [devmgr_loop, buf_after]
  | cons r rest ih =>
    intro m hs
    simp only [List.cons_append, devmgr_loop] at hs ⊢
    by_cases hret : (recv_msg r m).1 > 0
    · simp only [hret, if_true] at hs ⊢
      rcases hh : handle devpath os_open (recv_msg r m).2.2 with ⟨evs, c⟩
      rw [hh] at hs
      cases c with
      | exit n => simp at hs
      | next running =>
        cases running with
        | false => simp [devmgr_loop_stopped] at hs
        | true =>
          simp only at hs ⊢
          have e := ih _ hs
          simp only [List.append_eq] at e ⊢
          rw [e]
          simp [buf_after]
    · simp [hret] at hs

theorem devmgr_run_step (devpath : List Nat) (os_open : List Nat → Int × Int)
    (msg0 : msg) (pre rest : List (Recvmsg msg)) (r : Recvmsg msg)
    (hs : Serving (devmgr_run devpath os_open msg0 pre)) :
    devmgr_run devpath os_open msg0 (pre ++ r :: rest) =
      ⟨(devmgr_run devpath os_open msg0 pre).trace
          ++ (devmgr_loop devpath os_open (r :: rest) true (buf_after pre msg0)).trace,
        (devmgr_loop devpath os_open (r :: rest) true (buf_after pre msg0)).status⟩ :=
  devmgr_loop_append devpath os_open pre (r :: rest) msg0 hs

theorem handle_opened (devpath : List Nat) (os_open : List Nat → Int × Int) (m : msg)
    (e : Ev) (he : e ∈ (handle devpath os_open m).1) (p : List Nat)
    (fl : List OFlag) (fd : Int) (hp : e = Ev.sys_open p fl fd) :
    cstr devpath <+: p ∧ fl = open_flags := by
  subst hp
  unfold handle at he
  split_ifs at he with h1 h2 h3
  · simp at he
  · have hacc := (strstr_zero_iff _ _).mp (not_not.mp h2)
    simp only [List.cons_append, List.nil_append, List.mem_cons, send_msg] at he
    rcases he with he | he | he
    · injection he with e1 e2 e3
      subst e1 e2
      exact ⟨hacc, rfl⟩
    · simp at he
    · split_ifs at he <;> simp at he
  · simp [send_msg] at he
  · simp at he

theorem devmgr_loop_opened (devpath : List Nat) (os_open : List Nat → Int × Int)
    (inputs : List (Recvmsg msg)) :
    ∀ (b : Bool) (m : msg), ∀ e ∈ (devmgr_loop devpath os_open inputs b m).trace,
      ∀ (p : List Nat) (fl : List OFlag) (fd : Int), e = Ev.sys_open p fl fd →
        cstr devpath <+: p ∧ fl = open_flags := by
  induction inputs with
  | nil => intro b m e he; cases b <;> simp [devmgr_loop] at he
  | cons r rest ih =>
    intro b m e he p fl fd hp
    cases b with
    | false => simp [devmgr_loop] at he
    | true =>
      simp only [devmgr_loop] at he
      split_ifs at he with hret
      · rcases hh : handle devpath os_open (recv_msg r m).2.2 with ⟨evs, c⟩
        have hev : ∀ x ∈ evs, x ∈ (handle devpath os_open (recv_msg r m).2.2).1 := by
          intro x hx; rw [hh]; exact hx
        rw [hh] at he
        cases c with
        | exit n =>
          simp only [List.mem_cons] at he
          rcases he with he | he
          · subst he; cases hp
          · exact handle_opened devpath os_open _ e (hev e he) p fl fd hp
        | next running =>
          simp only [List.mem_cons, List.mem_append] at he
          rcases he with he | he | he
          · subst he; cases hp
          · exact handle_opened devpath os_open _ e (hev e he) p fl fd hp
          · exact ih running _ e he p fl fd hp
      · simp only [List.mem_singleton] at he
        subst he; cases hp

/-! ## The broker confines and answers requests -/

/-- C1: a broker that is Serving and receives an Open request whose path does
not start with the configured prefix exits with status 1; beyond the receive
of that request it makes no system call, so it sends no response and opens
nothing, and later messages are never read. -/
theorem devmgr_run_rejects_outside (devpath : List Nat)
    (os_open : List Nat → Int × Int) (msg0 : msg) (pre rest : List (Recvmsg msg))
    (r : Recvmsg msg) (m : msg)
    (hserving : Serving (devmgr_run devpath os_open msg0 pre))
    (hret : r.ret > 0) (hdata : r.data = some m) (htype : m.msg_type = MSG_OPEN)
    (hout : ¬ cstr devpath <+: cstr m.path) :
    devmgr_run devpath os_open msg0 (pre ++ r :: rest) =
        ⟨(devmgr_run devpath os_open msg0 pre).trace ++ [Ev.recvmsg r.ret r.cmsg], some 1⟩
      ∧ (devmgr_run devpath os_open msg0 (pre ++ r :: rest)).status = some 1
      ∧ sent (devmgr_run devpath os_open msg0 (pre ++ r :: rest)).trace =
          sent (devmgr_run devpath os_open msg0 pre).trace
      ∧ opened (devmgr_run devpath os_open msg0 (pre ++ r :: rest)).trace =
          opened (devmgr_run devpath os_open msg0 pre).trace := by
  have hno : strstr (cstr m.path) (cstr devpath) ≠ some 0 :=
    fun h => hout ((strstr_zero_iff _ _).mp h)
  have hrun : devmgr_run devpath os_open msg0 (pre ++ r :: rest) =
      ⟨(devmgr_run devpath os_open msg0 pre).trace ++ [Ev.recvmsg r.ret r.cmsg], some 1⟩ := by
    rw [devmgr_run_step devpath os_open msg0 pre rest r hserving]
    simp [devmgr_loop, recv_msg, hret, hdata, handle, htype, hno]
  refine ⟨hrun, ?_, ?_, ?_⟩
  · rw [hrun]
  · rw [hrun]; simp [sent_append, sent]
  · rw [hrun]; simp [opened_append, opened]

/-- Witness for C1: with prefix `/dev/input/`, the request `Open /etc/shadow`
as the first message makes the broker exit with status 1 after the receive. -/
theorem devmgr_run_rejects_outside_witness :
    (devmgr_run (bytes "/dev/input/") (fun _ => (3, 0)) ⟨0, []⟩
        ([] ++ (⟨4100, none, some ⟨MSG_OPEN, bytes "/etc/shadow"⟩⟩ : Recvmsg msg) :: [])).status
      = some 1 :=
  (devmgr_run_rejects_outside (bytes "/dev/input/") (fun _ => (3, 0)) ⟨0, []⟩ [] []
    ⟨4100, none, some ⟨MSG_OPEN, bytes "/etc/shadow"⟩⟩ ⟨MSG_OPEN, bytes "/etc/shadow"⟩
    (by decide) (by decide) rfl rfl (by decide)).2.1

/-- C2: the acceptance test `strstr(path, prefix) == path` holds exactly when
the prefix is a leading run of bytes of the path; for an Open request the
broker goes on exactly in that case and exits with status 1 otherwise. The
test is textual: the prefix followed by anything is accepted, and with prefix
`/dev/input/` the broker opens `/dev/input/../../etc/shadow`. -/
theorem strstr_accepts_iff_leading (path devpath : List Nat) :
    (strstr path devpath = some 0 ↔ devpath <+: path)
      ∧ (∀ (os_open : List Nat → Int × Int) (m : msg), m.msg_type = MSG_OPEN →
          (((handle devpath os_open m).2 = Ctl.next true ↔ cstr devpath <+: cstr m.path)
            ∧ ((handle devpath os_open m).2 = Ctl.exit 1 ↔ ¬ cstr devpath <+: cstr m.path)))
      ∧ (∀ tail : List Nat, strstr (devpath ++ tail) devpath = some 0)
      ∧ (∀ (os_open : List Nat → Int × Int) (msg0 : msg),
          opened (devmgr_run (bytes "/dev/input/") os_open msg0
            [⟨4100, none, some ⟨MSG_OPEN, bytes "/dev/input/../../etc/shadow" ++ [0]⟩⟩]).trace
            = [bytes "/dev/input/../../etc/shadow"]) := by
  refine ⟨strstr_zero_iff path devpath, ?_, ?_, ?_⟩
  · intro os_open m ht
    by_cases h : cstr devpath <+: cstr m.path
    · have hz := (strstr_zero_iff _ _).mpr h
      simp [handle, ht, hz, h]
    · have hz : strstr (cstr m.path) (cstr devpath) ≠ some 0 :=
        fun hh => h ((strstr_zero_iff _ _).mp hh)
      simp [handle, ht, hz, h]
  · intro tail
    exact (strstr_zero_iff _ _).mpr (List.prefix_append devpath tail)
  · intro os_open msg0
    have hc : cstr (bytes "/dev/input/../../etc/shadow" ++ [0])
        = bytes "/dev/input/../../etc/shadow" := by decide
    have hz : strstr (bytes "/dev/input/../../etc/shadow") (cstr (bytes "/dev/input/"))
        = some 0 := by decide
    simp only [devmgr_run, devmgr_loop, recv_msg, Option.getD_some, handle, hc, hz]
    by_cases hfd : (os_open (bytes "/dev/input/../../etc/shadow")).1 ≥ 0
    · simp [hfd, opened, send_msg, MSG_OPEN]
    · simp [hfd, opened, send_msg, MSG_OPEN]

/-- Witness for C2: with prefix `/dev/input/` the request
`Open /dev/input/event3` passes the test and the loop goes on. -/
theorem strstr_accepts_iff_leading_witness :
    (handle (bytes "/dev/input/") (fun _ => (3, 0))
      ⟨MSG_OPEN, bytes "/dev/input/event3"⟩).2 = Ctl.next true :=
  ((strstr_accepts_iff_leading [] (bytes "/dev/input/")).2.1 (fun _ => (3, 0))
    ⟨MSG_OPEN, bytes "/dev/input/event3"⟩ rfl).1.mpr (by decide)

/-- C3: whatever messages the broker receives, every `open` it makes is on a
path that starts with the configured prefix, with the read-only flags, and a
message whose discriminant is neither `MSG_OPEN` nor `MSG_END`, received while
Serving, adds only its own receive to the trace (no `open`, no response) and
the loop goes on with `running` still true. -/
theorem devmgr_run_confined (devpath : List Nat) (os_open : List Nat → Int × Int)
    (msg0 : msg) (inputs : List (Recvmsg msg)) :
    (∀ e ∈ (devmgr_run devpath os_open msg0 inputs).trace,
        ∀ (p : List Nat) (fl : List OFlag) (fd : Int), e = Ev.sys_open p fl fd →
          cstr devpath <+: p ∧ fl = open_flags)
      ∧ (∀ p ∈ opened (devmgr_run devpath os_open msg0 inputs).trace, cstr devpath <+: p)
      ∧ (∀ (pre rest : List (Recvmsg msg)) (r : Recvmsg msg) (m : msg),
          inputs = pre ++ r :: rest →
          Serving (devmgr_run devpath os_open msg0 pre) →
          r.ret > 0 → r.data = some m → m.msg_type ≠ MSG_OPEN → m.msg_type ≠ MSG_END →
            devmgr_run devpath os_open msg0 inputs =
                ⟨(devmgr_run devpath os_open msg0 pre).trace
                    ++ Ev.recvmsg r.ret r.cmsg :: (devmgr_loop devpath os_open rest true m).trace,
                  (devmgr_loop devpath os_open rest true m).status⟩
              ∧ devmgr_run devpath os_open msg0 (pre ++ [r]) =
                ⟨(devmgr_run devpath os_open msg0 pre).trace ++ [Ev.recvmsg r.ret r.cmsg], none⟩) := by
  have h1 := devmgr_loop_opened devpath os_open inputs true msg0
  refine ⟨h1, ?_, ?_⟩
  · intro p hp
    have key : ∀ (t : List Ev), p ∈ opened t → ∃ fl fd, Ev.sys_open p fl fd ∈ t := by
      intro t
      induction t with
      | nil => intro h; simp [opened] at h
      | cons e t ih =>
        intro h
        cases e with
        | sys_open q fl fd =>
          simp only [opened, List.mem_cons] at h
          rcases h with h | h
          · subst h; exact ⟨fl, fd, List.mem_cons_self _ _⟩
          · obtain ⟨fl2, fd2, hm⟩ := ih h
            exact ⟨fl2, fd2, List.mem_cons_of_mem _ hm⟩
        | recvmsg a b =>
          simp only [opened] at h
          obtain ⟨fl2, fd2, hm⟩ := ih h
          exact ⟨fl2, fd2, List.mem_cons_of_mem _ hm⟩
        | sendmsg a b =>
          simp only [opened] at h
          obtain ⟨fl2, fd2, hm⟩ := ih h
          exact ⟨fl2, fd2, List.mem_cons_of_mem _ hm⟩
        | close a =>
          simp only [opened] at h
          obtain ⟨fl2, fd2, hm⟩ := ih h
          exact ⟨fl2, fd2, List.mem_cons_of_mem _ hm⟩
    obtain ⟨fl, fd, hm⟩ := key _ hp
    exact (h1 _ hm p fl fd rfl).1
  · intro pre rest r m hin hs hret hdata hno hne
    subst hin
    constructor
    · rw [devmgr_run_step devpath os_open msg0 pre rest r hs]
      simp [devmgr_loop, recv_msg, hret, hdata, handle, hno, hne]
    · rw [devmgr_run_step devpath os_open msg0 pre [] r hs]
      simp [devmgr_loop, recv_msg, hret, hdata, handle, hno, hne]

/-- Witness for C3: with prefix `/dev/input/`, a message with discriminant 7
followed by `Open /dev/input/event3`: the first adds only its receive, the
second is served. -/
theorem devmgr_run_confined_witness :
    devmgr_run (bytes "/dev/input/") (fun _ => (3, 0)) ⟨0, []⟩
        [⟨4100, none, some ⟨7, bytes "/etc/shadow"⟩⟩,
         ⟨4100, none, some ⟨MSG_OPEN, bytes "/dev/input/event3"⟩⟩]
      = ⟨(devmgr_run (bytes "/dev/input/") (fun _ => (3, 0)) ⟨0, []⟩ []).trace
          ++ Ev.recvmsg 4100 none ::
            (devmgr_loop (bytes "/dev/input/") (fun _ => (3, 0))
              [⟨4100, none, some ⟨MSG_OPEN, bytes "/dev/input/event3"⟩⟩] true
              ⟨7, bytes "/etc/shadow"⟩).trace,
         (devmgr_loop (bytes "/dev/input/") (fun _ => (3, 0))
              [⟨4100, none, some ⟨MSG_OPEN, bytes "/dev/input/event3"⟩⟩] true
              ⟨7, bytes "/etc/shadow"⟩).status⟩ :=
  ((devmgr_run_confined (bytes "/dev/input/") (fun _ => (3, 0)) ⟨0, []⟩
      [⟨4100, none, some ⟨7, bytes "/etc/shadow"⟩⟩,
       ⟨4100, none, some ⟨MSG_OPEN, bytes "/dev/input/event3"⟩⟩]).2.2
    [] [⟨4100, none, some ⟨MSG_OPEN, bytes "/dev/input/event3"⟩⟩]
    ⟨4100, none, some ⟨7, bytes "/etc/shadow"⟩⟩ ⟨7, bytes "/etc/shadow"⟩
    rfl (by decide) (by decide) rfl (by decide) (by decide)).1

/-- C4: a broker that is Serving and receives an Open request whose path
starts with the prefix calls `open` on it and sends exactly one response; the
response code is the `errno` of the `open` (0 on success), the descriptor is
attached exactly when the code is 0, and the loop goes on with `running`
still true: after the response the broker is Serving. -/
theorem devmgr_run_open_response (devpath : List Nat)
    (os_open : List Nat → Int × Int) (msg0 : msg) (pre rest : List (Recvmsg msg))
    (r : Recvmsg msg) (m : msg)
    (hserving : Serving (devmgr_run devpath os_open msg0 pre))
    (hret : r.ret > 0) (hdata : r.data = some m) (htype : m.msg_type = MSG_OPEN)
    (hin : cstr devpath <+: cstr m.path)
    (hposix : PosixOpen (os_open (cstr m.path))) :
    devmgr_run devpath os_open msg0 (pre ++ r :: rest) =
        ⟨(devmgr_run devpath os_open msg0 pre).trace
            ++ [Ev.recvmsg r.ret r.cmsg,
                Ev.sys_open (cstr m.path) open_flags (os_open (cstr m.path)).1,
                Ev.sendmsg (if (os_open (cstr m.path)).2 = 0
                    then some (os_open (cstr m.path)).1 else none)
                  (Payload.code (os_open (cstr m.path)).2)]
            ++ (if (os_open (cstr m.path)).2 = 0
                then [Ev.close (os_open (cstr m.path)).1] else [])
            ++ (devmgr_loop devpath os_open rest true m).trace,
          (devmgr_loop devpath os_open rest true m).status⟩
      ∧ sent (handle devpath os_open m).1 =
          [(if (os_open (cstr m.path)).2 = 0 then some (os_open (cstr m.path)).1 else none,
            Payload.code (os_open (cstr m.path)).2)]
      ∧ ((os_open (cstr m.path)).2 = 0 ↔ 0 ≤ (os_open (cstr m.path)).1)
      ∧ Serving (devmgr_run devpath os_open msg0 (pre ++ [r])) := by
  have hz := (strstr_zero_iff _ _).mpr hin
  have hcases : ((os_open (cstr m.path)).2 = 0 ∧ 0 ≤ (os_open (cstr m.path)).1) ∨
      ((os_open (cstr m.path)).2 ≠ 0 ∧ ¬ 0 ≤ (os_open (cstr m.path)).1) := by
    rcases hposix with ⟨a, b⟩ | ⟨a, b⟩
    · exact Or.inl ⟨b, a⟩
    · exact Or.inr ⟨b, by rw [a]; decide⟩
  refine ⟨?_, ?_, ?_, ?_⟩
  · rw [devmgr_run_step devpath os_open msg0 pre rest r hserving]
    rcases hcases with ⟨a, b⟩ | ⟨a, b⟩ <;>
      simp [devmgr_loop, recv_msg, hret, hdata, handle, htype, hz, send_msg, a, b]
  · rcases hcases with ⟨a, b⟩ | ⟨a, b⟩ <;>
      simp [handle, htype, hz, send_msg, a, b, sent]
  · rcases hcases with ⟨a, b⟩ | ⟨a, b⟩ <;> simp [a, b]
  · unfold Serving
    rw [devmgr_run_step devpath os_open msg0 pre [] r hserving]
    simp [devmgr_loop, recv_msg, hret, hdata, handle, htype, hz]

/-- Witness for C4: with prefix `/dev/input/`, `Open /dev/input/nothere` on a
system where that `open` fails with `errno = 2`: one response, code 2, no
descriptor, and the broker is Serving. -/
theorem devmgr_run_open_response_witness :
    sent (handle (bytes "/dev/input/") (fun _ => (-1, 2))
        ⟨MSG_OPEN, bytes "/dev/input/nothere"⟩).1 =
      [(if ((fun _ => (-1, 2)) (cstr (bytes "/dev/input/nothere")) : Int × Int).2 = 0
          then some ((fun _ => (-1, 2)) (cstr (bytes "/dev/input/nothere")) : Int × Int).1
          else none,
        Payload.code ((fun _ => (-1, 2)) (cstr (bytes "/dev/input/nothere")) : Int × Int).2)] :=
  (devmgr_run_open_response (bytes "/dev/input/") (fun _ => (-1, 2)) ⟨0, []⟩ [] []
    ⟨4100, none, some ⟨MSG_OPEN, bytes "/dev/input/nothere"⟩⟩
    ⟨MSG_OPEN, bytes "/dev/input/nothere"⟩
    (by decide) (by decide) rfl rfl (by decide) (by decide)).2.1

/-! ## The client and the exchange -/

theorem wrap32_neg (x : Int) (h1 : -2147483648 < x) (h2 : x < 2147483648) :
    wrap32 (-x) = -x := by
  unfold wrap32; omega

theorem cstr_no_nul (p : List Nat) (h : 0 ∉ p) : cstr p = p := by
  unfold cstr
  rw [List.takeWhile_eq_self_iff]
  intro x hx
  have : x ≠ 0 := fun e => h (e ▸ hx)
  simpa using this

theorem cstr_append_zeros (l : List Nat) (h : 0 ∉ l) (k : Nat) :
    cstr (l ++ List.replicate k 0) = l := by
  induction l with
  | nil => cases k <;> simp [cstr, List.replicate]
  | cons a t ih =>
    have ha : a ≠ 0 := fun e => h (by simp [e])
    have ht : 0 ∉ t := fun e => h (List.mem_cons_of_mem _ e)
    have hb : (a != 0) = true := by simpa using ha
    have hi := ih ht
    unfold cstr at hi ⊢
    simp only [List.cons_append, List.takeWhile_cons, hb, if_true, hi]

theorem cstr_snprintf_path (PATH_MAX : Nat) (p : List Nat) (h : 0 ∉ p) :
    cstr (snprintf_path PATH_MAX p) = p.take (PATH_MAX - 1) := by
  unfold snprintf_path
  rw [cstr_no_nul p h]
  exact cstr_append_zeros _ (fun e => h (List.mem_of_mem_take e)) _

theorem recv_retry_first (chan : Nat → Recvmsg Int) (err0 : Int)
    (h : (chan 0).ret ≠ 0) :
    recv_retry chan 0 err0 =
      ⟨[Ev.recvmsg (chan 0).ret (chan 0).cmsg], (chan 0).cmsg.getD (-1),
        (chan 0).data.getD err0, (chan 0).ret⟩ := by
  rw [recv_retry]
  simp [recv_msg, h]

theorem exchange_served (PATH_MAX : Nat) (devpath : List Nat)
    (os_open : List Nat → Int × Int) (install : Int → Nat) (msg0 : msg) (err0 : Int)
    (path : List Nat)
    (hin : cstr devpath <+: cstr (snprintf_path PATH_MAX path))
    (hposix : PosixOpen (os_open (cstr (snprintf_path PATH_MAX path)))) :
    (exchange PATH_MAX devpath os_open install msg0 err0 path).2 =
        ⟨[Ev.recvmsg ((4 + PATH_MAX : Nat) : Int) none,
          Ev.sys_open (cstr (snprintf_path PATH_MAX path)) open_flags
            (os_open (cstr (snprintf_path PATH_MAX path))).1,
          Ev.sendmsg (if (os_open (cstr (snprintf_path PATH_MAX path))).2 = 0
              then some (os_open (cstr (snprintf_path PATH_MAX path))).1 else none)
            (Payload.code (os_open (cstr (snprintf_path PATH_MAX path))).2)]
          ++ (if (os_open (cstr (snprintf_path PATH_MAX path))).2 = 0
              then [Ev.close (os_open (cstr (snprintf_path PATH_MAX path))).1] else []),
          none⟩
      ∧ (exchange PATH_MAX devpath os_open install msg0 err0 path).1.ret =
          (if (os_open (cstr (snprintf_path PATH_MAX path))).2 ≠ 0
            then wrap32 (-(os_open (cstr (snprintf_path PATH_MAX path))).2)
            else (install (os_open (cstr (snprintf_path PATH_MAX path))).1 : Int)) := by
  have hz := (strstr_zero_iff _ _).mpr hin
  have hpos : (0 : Int) < 4 + (PATH_MAX : Int) := by omega
  have hcases : ((os_open (cstr (snprintf_path PATH_MAX path))).2 = 0
        ∧ 0 ≤ (os_open (cstr (snprintf_path PATH_MAX path))).1) ∨
      ((os_open (cstr (snprintf_path PATH_MAX path))).2 ≠ 0
        ∧ ¬ 0 ≤ (os_open (cstr (snprintf_path PATH_MAX path))).1) := by
    rcases hposix with ⟨a, b⟩ | ⟨a, b⟩
    · exact Or.inl ⟨b, a⟩
    · exact Or.inr ⟨b, by rw [a]; decide⟩
  rcases hcases with ⟨a, b⟩ | ⟨a, b⟩
  · have hB : (exchange PATH_MAX devpath os_open install msg0 err0 path).2 =
        ⟨[Ev.recvmsg ((4 + PATH_MAX : Nat) : Int) none,
          Ev.sys_open (cstr (snprintf_path PATH_MAX path)) open_flags
            (os_open (cstr (snprintf_path PATH_MAX path))).1,
          Ev.sendmsg (some (os_open (cstr (snprintf_path PATH_MAX path))).1) (Payload.code 0),
          Ev.close (os_open (cstr (snprintf_path PATH_MAX path))).1], none⟩ := by
      simp [exchange, devmgr_run, devmgr_loop, recv_msg, hpos, handle, open_request,
        MSG_OPEN, hz, send_msg, a, b]
    constructor
    · rw [hB]; simp [a]
    · have hC : (exchange PATH_MAX devpath os_open install msg0 err0 path).1 =
          devmgr_open PATH_MAX path (deliver install (sent
            (exchange PATH_MAX devpath os_open install msg0 err0 path).2.trace)) err0 := rfl
      rw [hC, hB]
      simp [devmgr_open, recv_retry_first, deliver, sent, a]
  · have hB : (exchange PATH_MAX devpath os_open install msg0 err0 path).2 =
        ⟨[Ev.recvmsg ((4 + PATH_MAX : Nat) : Int) none,
          Ev.sys_open (cstr (snprintf_path PATH_MAX path)) open_flags
            (os_open (cstr (snprintf_path PATH_MAX path))).1,
          Ev.sendmsg none (Payload.code (os_open (cstr (snprintf_path PATH_MAX path))).2)],
          none⟩ := by
      simp [exchange, devmgr_run, devmgr_loop, recv_msg, hpos, handle, open_request,
        MSG_OPEN, hz, send_msg, a, b]
    constructor
    · rw [hB]; simp [a]
    · have hC : (exchange PATH_MAX devpath os_open install msg0 err0 path).1 =
          devmgr_open PATH_MAX path (deliver install (sent
            (exchange PATH_MAX devpath os_open install msg0 err0 path).2.trace)) err0 := rfl
      rw [hC, hB]
      simp [devmgr_open, recv_retry_first, deliver, sent, a]

theorem recv_retry_at (chan : Nat → Recvmsg Int) (err0 : Int) (k : Nat) (hk : k ≤ 3)
    (hpre : ∀ i, i < k → chan i = ⟨0, none, none⟩) (hgot : (chan k).ret ≠ 0) :
    recv_retry chan 0 err0 =
      ⟨List.replicate k (Ev.recvmsg 0 none) ++ [Ev.recvmsg (chan k).ret (chan k).cmsg],
        (chan k).cmsg.getD (-1), (chan k).data.getD err0, (chan k).ret⟩ := by
  rcases k with _ | _ | _ | _ | k
  · exact recv_retry_first chan err0 hgot
  · have h0 := hpre 0 (by omega)
    simp [recv_retry, recv_msg, h0, hgot, List.replicate]
  · have h0 := hpre 0 (by omega)
    have h1 := hpre 1 (by omega)
    simp [recv_retry, recv_msg, h0, h1, hgot, List.replicate]
  · have h0 := hpre 0 (by omega)
    have h1 := hpre 1 (by omega)
    have h2 := hpre 2 (by omega)
    simp [recv_retry, recv_msg, h0, h1, h2, hgot, List.replicate]
  · omega

/-- C5, as stated, fails: a response with code 13 and descriptor 7 attached
makes `devmgr_open` return -13 while descriptor 7 stays open in the client,
and a response with code -5 makes it return 5, which is neither a received
descriptor nor negative. -/
theorem devmgr_open_keeps_descriptor :
    (devmgr_open 4096 (bytes "/dev/input/event3") (fun _ => ⟨4, some 7, some 13⟩) 0).ret = -13
      ∧ 7 ∈ held_after []
          (devmgr_open 4096 (bytes "/dev/input/event3") (fun _ => ⟨4, some 7, some 13⟩) 0).trace
      ∧ (devmgr_open 4096 (bytes "/dev/input/event3") (fun _ => ⟨4, none, some (-5)⟩) 0).ret = 5 := by
  refine ⟨?_, ?_, ?_⟩
  · simp [devmgr_open, recv_retry_first, wrap32]
  · simp [devmgr_open, recv_retry_first, send_msg, held_after]
  · simp [devmgr_open, recv_retry_first, wrap32]

/-- C5, amended: when the response (code `err`, optional descriptor `fdopt`)
arrives at receive `k` after `k` empty receives, `devmgr_open` returns `-err`
if `err` is non-zero and the received descriptor, or -1 when none came, if
`err` is 0. It makes no `close`: the calls are the send and the receives, and
a descriptor that came with the response stays open in the client whatever
the code. The result is negative for a positive code and is the descriptor
for code 0 with a descriptor attached. -/
theorem devmgr_open_result (PATH_MAX : Nat) (path : List Nat)
    (chan : Nat → Recvmsg Int) (err0 : Int) (k : Nat) (n err : Int) (fdopt : Option Int)
    (hk : k ≤ 3) (hpre : ∀ i, i < k → chan i = ⟨0, none, none⟩)
    (hresp : chan k = ⟨n, fdopt, some err⟩) (hn : n ≠ 0)
    (hlo : -2147483648 < err) (hhi : err < 2147483648) :
    (err ≠ 0 → (devmgr_open PATH_MAX path chan err0).ret = -err)
      ∧ (err = 0 → (devmgr_open PATH_MAX path chan err0).ret = fdopt.getD (-1))
      ∧ (devmgr_open PATH_MAX path chan err0).trace =
          send_msg (-1) (Payload.request (open_request PATH_MAX path))
            :: (List.replicate k (Ev.recvmsg 0 none) ++ [Ev.recvmsg n fdopt])
      ∧ held_after [] (devmgr_open PATH_MAX path chan err0).trace = fdopt.toList
      ∧ (0 < err → (devmgr_open PATH_MAX path chan err0).ret < 0)
      ∧ (err = 0 → ∀ fd, fdopt = some fd → (devmgr_open PATH_MAX path chan err0).ret = fd) := by
  have hgot : (chan k).ret ≠ 0 := by rw [hresp]; exact hn
  have hr := recv_retry_at chan err0 k hk hpre hgot
  rw [hresp] at hr
  have hw := wrap32_neg err hlo hhi
  have hheld : ∀ (j : Nat) (acc : List Int),
      held_after acc (List.replicate j (Ev.recvmsg 0 none) ++ [Ev.recvmsg n fdopt])
        = fdopt.toList ++ acc := by
    intro j
    induction j with
    | zero => intro acc; cases fdopt <;> simp [held_after]
    | succ j ih => intro acc; simp [List.replicate, held_after, ih]
  refine ⟨?_, ?_, ?_, ?_, ?_, ?_⟩
  · intro h; simp [devmgr_open, hr, h, hw]
  · intro h; simp [devmgr_open, hr, h]
  · simp [devmgr_open, hr]
  · simp [devmgr_open, hr, send_msg, held_after, hheld]
  · intro h
    have h0 : err ≠ 0 := by omega
    simp [devmgr_open, hr, h0, hw]; omega
  · intro h fd hfd; simp [devmgr_open, hr, h, hfd]

/-- Witness for C5 amended: code 2 and no descriptor at the first receive. -/
theorem devmgr_open_result_witness :
    (devmgr_open 4096 (bytes "/dev/input/nothere") (fun _ => ⟨4, none, some 2⟩) 0).ret < 0 :=
  (devmgr_open_result 4096 (bytes "/dev/input/nothere") (fun _ => ⟨4, none, some 2⟩) 0
    0 4 2 none (by decide) (by intro i hi; omega) rfl (by decide) (by decide) (by decide)).2.2.2.2.1
    (by decide)

theorem exchange_opens_short_path (PATH_MAX : Nat) (devpath : List Nat)
    (os_open : List Nat → Int × Int) (install : Int → Nat) (msg0 : msg) (err0 : Int)
    (p : List Nat) (hnul : 0 ∉ p) (hlen : p.length < PATH_MAX)
    (hin : cstr devpath <+: p)
    (hfd : 0 ≤ (os_open p).1) (herr : (os_open p).2 = 0) :
    (exchange PATH_MAX devpath os_open install msg0 err0 p).1.ret = (install (os_open p).1 : Int)
      ∧ 0 ≤ (exchange PATH_MAX devpath os_open install msg0 err0 p).1.ret
      ∧ (exchange PATH_MAX devpath os_open install msg0 err0 p).2 =
          ⟨[Ev.recvmsg ((4 + PATH_MAX : Nat) : Int) none,
            Ev.sys_open p open_flags (os_open p).1,
            Ev.sendmsg (some (os_open p).1) (Payload.code 0),
            Ev.close (os_open p).1], none⟩
      ∧ opened (exchange PATH_MAX devpath os_open install msg0 err0 p).2.trace = [p] := by
  have hq : cstr (snprintf_path PATH_MAX p) = p := by
    rw [cstr_snprintf_path PATH_MAX p hnul]
    exact List.take_of_length_le (by omega)
  have hs := exchange_served PATH_MAX devpath os_open install msg0 err0 p
    (by rw [hq]; exact hin) (by rw [hq]; exact Or.inl ⟨hfd, herr⟩)
  rw [hq] at hs
  refine ⟨?_, ?_, ?_, ?_⟩
  · rw [hs.2]; simp [herr]
  · rw [hs.2]; simp [herr]
  · rw [hs.1]; simp [herr]
  · rw [hs.1]; simp [herr, opened]

theorem open_event3_limit : PathLimit 4096 open_event3 := by
  intro q hq
  simp [open_event3, hq]

/-- C6: for a path `p` of any length that starts with the prefix and on which
`open` succeeds, where `open` refuses pathnames of `PATH_MAX` or more bytes,
one `devmgr_open(p)` against a Serving broker makes the broker open exactly
`p`, send the descriptor with code 0 and close its copy; the client returns
the descriptor installed for it, which is non-negative; the broker is still
Serving. A path on which `open` succeeds is shorter than `PATH_MAX`, so the
copy into `char path[PATH_MAX]` keeps all of it. -/
theorem exchange_opens_path (PATH_MAX : Nat) (devpath : List Nat)
    (os_open : List Nat → Int × Int) (install : Int → Nat) (msg0 : msg) (err0 : Int)
    (p : List Nat) (hnul : 0 ∉ p) (hin : cstr devpath <+: p)
    (hfd : 0 ≤ (os_open p).1) (herr : (os_open p).2 = 0)
    (hlimit : PathLimit PATH_MAX os_open) :
    (exchange PATH_MAX devpath os_open install msg0 err0 p).1.ret = (install (os_open p).1 : Int)
      ∧ 0 ≤ (exchange PATH_MAX devpath os_open install msg0 err0 p).1.ret
      ∧ (exchange PATH_MAX devpath os_open install msg0 err0 p).2 =
          ⟨[Ev.recvmsg ((4 + PATH_MAX : Nat) : Int) none,
            Ev.sys_open p open_flags (os_open p).1,
            Ev.sendmsg (some (os_open p).1) (Payload.code 0),
            Ev.close (os_open p).1], none⟩
      ∧ opened (exchange PATH_MAX devpath os_open install msg0 err0 p).2.trace = [p] := by
  have hlen : p.length < PATH_MAX := by
    by_contra hge
    have hneg := hlimit p (by omega)
    omega
  exact exchange_opens_short_path PATH_MAX devpath os_open install msg0 err0 p hnul hlen
    hin hfd herr

/-- Witness for C6: `/dev/input/event3` in the file system `open_event3`, with
`PATH_MAX = 4096`. -/
theorem exchange_opens_path_witness :
    opened (exchange 4096 (bytes "/dev/input/") open_event3 Int.toNat ⟨0, []⟩ 0
      (bytes "/dev/input/event3")).2.trace = [bytes "/dev/input/event3"] :=
  (exchange_opens_path 4096 (bytes "/dev/input/") open_event3 Int.toNat ⟨0, []⟩ 0
    (bytes "/dev/input/event3") (by decide) (by decide) (by decide) (by decide)
    open_event3_limit).2.2.2

/-- C7: when `devmgr_start` returns 0 its calls are, in order, `geteuid`,
`socketpair`, `fork`, `close(sock[1])`, `setgid(getgid())` returning 0,
`setuid(getuid())` returning 0 and `setuid(0)` returning -1, in the parent of
the fork; whenever `setuid(0)` does not return -1 the result is not 0, and
when the call is reached and succeeds the result is 1. -/
theorem devmgr_start_drops_privilege (env : StartEnv) (fd pid : Int) :
    ((devmgr_start env fd pid).ret = some 0 →
        (devmgr_start env fd pid).trace =
            [SEv.geteuid, SEv.socketpair, SEv.fork, SEv.close env.sock1,
              SEv.getgid, SEv.setgid env.getgid 0,
              SEv.getuid, SEv.setuid env.getuid 0, SEv.setuid 0 (-1)]
          ∧ env.setgid = 0 ∧ env.setuid = 0 ∧ env.setuid_root = -1 ∧ 0 < env.fork)
      ∧ (env.setuid_root ≠ -1 → (devmgr_start env fd pid).ret ≠ some 0)
      ∧ (env.geteuid = 0 → 0 ≤ env.socketpair → 0 < env.fork → env.setgid = 0 →
          env.setuid = 0 → env.setuid_root = 0 →
            (devmgr_start env fd pid).ret = some 1
              ∧ SEv.setuid 0 0 ∈ (devmgr_start env fd pid).trace
              ∧ SEv.fprintf Diag.failed_to_drop_root ∈ (devmgr_start env fd pid).trace) := by
  refine ⟨?_, ?_, ?_⟩
  · intro h
    unfold devmgr_start at h ⊢
    split_ifs at h ⊢ with h1 h2 h3 h4 h5 h6 h7 <;> simp at h
    have e5 : env.setgid = 0 := not_not.mp h5
    have e6 : env.setuid = 0 := not_not.mp h6
    have e7 : env.setuid_root = -1 := not_not.mp h7
    refine ⟨by simp [e5, e6, e7], e5, e6, e7, ?_⟩
    omega
  · intro hne h
    unfold devmgr_start at h
    split_ifs at h <;> simp at h
  · intro a b c d e f
    have hb : ¬ env.socketpair < 0 := by omega
    have hc : ¬ env.fork < 0 := by omega
    have hc2 : env.fork ≠ 0 := by omega
    simp [devmgr_start, a, hb, hc, hc2, d, e, f]

/-- Witness for C7: the drop goes well in `env_dropped`; in `env_still_root`
the attempt to regain root succeeds and the result is 1. -/
theorem devmgr_start_drops_privilege_witness :
    env_dropped.setuid_root = -1 ∧ (devmgr_start env_still_root 0 0).ret = some 1 :=
  ⟨((devmgr_start_drops_privilege env_dropped 0 0).1 (by decide)).2.2.2.1,
    ((devmgr_start_drops_privilege env_still_root 0 0).2.2
      (by decide) (by decide) (by decide) (by decide) (by decide) (by decide)).1⟩

/-- C8 fails on the code when `socketpair` fails: `devmgr_start` returns -1
before any `setgid` or `setuid`, the test `> 0` in `main` does not hold, and
with no option error `main` goes on to the device setup with `state.devmgr`
still 0. -/
theorem main_start_socketpair_failure :
    fatal_startup env_no_socketpair
      ∧ devmgr_start env_no_socketpair 0 0 =
          ⟨[SEv.geteuid, SEv.socketpair, SEv.fprintf Diag.socketpair], some (-1), 0, 0⟩
      ∧ main_start env_no_socketpair Opts.parsed = MainStep.device_setup 0 := by
  decide

/-- For the other fatal startup outcomes `main` returns 1 before the option
loop and the device setup. -/
theorem main_start_fatal_other (env : StartEnv) (opts : Opts)
    (hfatal : fatal_startup env) (hsock : env.geteuid ≠ 0 ∨ 0 ≤ env.socketpair) :
    main_start env opts = MainStep.returned 1 := by
  unfold main_start devmgr_start
  rcases hfatal with h | h | h | ⟨h, h2⟩
  · simp [h]
  · rcases hsock with g | g
    · simp [g]
    · omega
  · by_cases g : env.geteuid ≠ 0
    · simp [g]
    · by_cases g2 : env.socketpair < 0
      · rcases hsock with g3 | g3
        · exact absurd g3 g
        · omega
      · simp [g, g2, h]
  · by_cases g : env.geteuid ≠ 0
    · simp [g]
    · by_cases g2 : env.socketpair < 0
      · rcases hsock with g3 | g3
        · exact absurd g3 g
        · omega
      · have hc : ¬ env.fork < 0 := by omega
        have hc2 : env.fork ≠ 0 := by omega
        simp only [g, g2, hc, hc2, if_false]
        split_ifs <;> simp_all

/-- C9: without root privilege `devmgr_start` returns 1 after `geteuid` and
the diagnostic alone: no `socketpair`, no `fork`, no `setgid` or `setuid`, and
`*fd` and `*pid` keep their values. -/
theorem devmgr_start_not_privileged (env : StartEnv) (fd pid : Int)
    (h : env.geteuid ≠ 0) :
    devmgr_start env fd pid =
        ⟨[SEv.geteuid, SEv.fprintf Diag.needs_setuid], some 1, fd, pid⟩
      ∧ (devmgr_start env fd pid).ret = some 1
      ∧ (devmgr_start env fd pid).fd = fd
      ∧ (devmgr_start env fd pid).pid = pid
      ∧ SEv.socketpair ∉ (devmgr_start env fd pid).trace
      ∧ SEv.fork ∉ (devmgr_start env fd pid).trace
      ∧ (∀ g r, SEv.setgid g r ∉ (devmgr_start env fd pid).trace)
      ∧ (∀ u r, SEv.setuid u r ∉ (devmgr_start env fd pid).trace) := by
  have e : devmgr_start env fd pid =
      ⟨[SEv.geteuid, SEv.fprintf Diag.needs_setuid], some 1, fd, pid⟩ := by
    simp [devmgr_start, h]
  rw [e]
  simp

/-- Witness for C9: effective uid 1000, outputs holding 5 and 6. -/
theorem devmgr_start_not_privileged_witness :
    devmgr_start env_unprivileged 5 6 =
      ⟨[SEv.geteuid, SEv.fprintf Diag.needs_setuid], some 1, 5, 6⟩ :=
  (devmgr_start_not_privileged env_unprivileged 5 6 (by decide)).1

/-- C10 fails on the code: when all four receives return 0 and store nothing,
`devmgr_open` returns `err ? -err : fd` with `err` never assigned; if its
stack slot held -7 the result is 7, a non-negative value. -/
theorem devmgr_open_uninitialised_err :
    devmgr_open 4096 (bytes "/etc/shadow") (fun _ => ⟨0, none, none⟩) (-7) =
        ⟨[send_msg (-1) (Payload.request (open_request 4096 (bytes "/etc/shadow"))),
          Ev.recvmsg 0 none, Ev.recvmsg 0 none, Ev.recvmsg 0 none, Ev.recvmsg 0 none], 7⟩
      ∧ ¬ (devmgr_open 4096 (bytes "/etc/shadow") (fun _ => ⟨0, none, none⟩) (-7)).ret < 0 := by
  have e : devmgr_open 4096 (bytes "/etc/shadow") (fun _ => ⟨0, none, none⟩) (-7) =
      ⟨[send_msg (-1) (Payload.request (open_request 4096 (bytes "/etc/shadow"))),
        Ev.recvmsg 0 none, Ev.recvmsg 0 none, Ev.recvmsg 0 none, Ev.recvmsg 0 none], 7⟩ := by
    simp [devmgr_open, recv_retry, recv_msg, wrap32]
  rw [e]
  simp

/-! ## The retry loop of `devmgr_open` -/

theorem recv_retry_trace (chan : Nat → Recvmsg Int) (err0 : Int) :
    ∃ k : Nat, k ≤ 3
      ∧ (recv_retry chan 0 err0).trace =
          (List.range (k + 1)).map (fun i => Ev.recvmsg (chan i).ret (chan i).cmsg)
      ∧ (∀ i, i < k → (chan i).ret = 0)
      ∧ ((chan k).ret ≠ 0 ∨ k = 3) := by
  by_cases h0 : (chan 0).ret = 0
  · by_cases h1 : (chan 1).ret = 0
    · by_cases h2 : (chan 2).ret = 0
      · refine ⟨3, by omega, ?_, ?_, Or.inr rfl⟩
        · simp [recv_retry, recv_msg, h0, h1, h2, List.range_succ]
        · intro i hi
          rcases i with _ | _ | _ | i
          · exact h0
          · exact h1
          · exact h2
          · omega
      · refine ⟨2, by omega, ?_, ?_, Or.inl h2⟩
        · simp [recv_retry, recv_msg, h0, h1, h2, List.range_succ]
        · intro i hi
          rcases i with _ | _ | i
          · exact h0
          · exact h1
          · omega
    · refine ⟨1, by omega, ?_, ?_, Or.inl h1⟩
      · simp [recv_retry, recv_msg, h0, h1, List.range_succ]
      · intro i hi
        rcases i with _ | i
        · exact h0
        · omega
  · refine ⟨0, by omega, ?_, ?_, Or.inl h0⟩
    · simp [recv_retry, recv_msg, h0, List.range_succ]
    · intro i hi; omega

theorem receives_map_recvmsg (f : Nat → Int) (g : Nat → Option Int) (l : List Nat) :
    receives (l.map (fun i => Ev.recvmsg (f i) (g i))) = l.length := by
  induction l with
  | nil => rfl
  | cons a t ih => simp [receives, ih]

theorem sent_map_recvmsg (f : Nat → Int) (g : Nat → Option Int) (l : List Nat) :
    sent (l.map (fun i => Ev.recvmsg (f i) (g i))) = [] := by
  induction l with
  | nil => rfl
  | cons a t ih => simp [sent, ih]

/-- C11: whatever the channel does, `devmgr_open` makes one `sendmsg`, the Open
request with no descriptor attached, and then `k + 1` receives with `k <= 3`,
so between 1 and 4: every receive before the last returned 0, and the last
one either returned something else or was the fourth. The loop is a total
function of the channel, so it always ends. -/
theorem devmgr_open_receives (PATH_MAX : Nat) (path : List Nat)
    (chan : Nat → Recvmsg Int) (err0 : Int) :
    ∃ k : Nat, k ≤ 3
      ∧ (devmgr_open PATH_MAX path chan err0).trace =
          Ev.sendmsg none (Payload.request ⟨MSG_OPEN, snprintf_path PATH_MAX path⟩)
            :: (List.range (k + 1)).map (fun i => Ev.recvmsg (chan i).ret (chan i).cmsg)
      ∧ (∀ i, i < k → (chan i).ret = 0)
      ∧ ((chan k).ret ≠ 0 ∨ k = 3)
      ∧ sent (devmgr_open PATH_MAX path chan err0).trace =
          [(none, Payload.request (open_request PATH_MAX path))]
      ∧ 1 ≤ receives (devmgr_open PATH_MAX path chan err0).trace
      ∧ receives (devmgr_open PATH_MAX path chan err0).trace ≤ 4 := by
  obtain ⟨k, hk, ht, hz, hl⟩ := recv_retry_trace chan err0
  have e : (devmgr_open PATH_MAX path chan err0).trace =
      Ev.sendmsg none (Payload.request ⟨MSG_OPEN, snprintf_path PATH_MAX path⟩)
        :: (List.range (k + 1)).map (fun i => Ev.recvmsg (chan i).ret (chan i).cmsg) := by
    simp only [devmgr_open, ht, send_msg, open_request]
    simp
  refine ⟨k, hk, e, hz, hl, ?_, ?_, ?_⟩
  · rw [e]
    simp only [sent, sent_map_recvmsg, open_request]
  · rw [e]
    simp only [receives, receives_map_recvmsg, List.length_range]
    omega
  · rw [e]
    simp only [receives, receives_map_recvmsg, List.length_range]
    omega

/-- Witness for C11: a channel on which every receive returns 0. -/
theorem devmgr_open_receives_witness :
    ∃ k : Nat, k ≤ 3
      ∧ (devmgr_open 4096 (bytes "/dev/input/event3") (fun _ => ⟨0, none, none⟩) 0).trace =
          Ev.sendmsg none
              (Payload.request ⟨MSG_OPEN, snprintf_path 4096 (bytes "/dev/input/event3")⟩)
            :: (List.range (k + 1)).map (fun i =>
                Ev.recvmsg ((fun _ => ⟨0, none, none⟩ : Nat → Recvmsg Int) i).ret
                  ((fun _ => ⟨0, none, none⟩ : Nat → Recvmsg Int) i).cmsg)
      ∧ (∀ i, i < k → ((fun _ => ⟨0, none, none⟩ : Nat → Recvmsg Int) i).ret = 0)
      ∧ (((fun _ => ⟨0, none, none⟩ : Nat → Recvmsg Int) k).ret ≠ 0 ∨ k = 3)
      ∧ sent (devmgr_open 4096 (bytes "/dev/input/event3") (fun _ => ⟨0, none, none⟩) 0).trace =
          [(none, Payload.request (open_request 4096 (bytes "/dev/input/event3")))]
      ∧ 1 ≤ receives
          (devmgr_open 4096 (bytes "/dev/input/event3") (fun _ => ⟨0, none, none⟩) 0).trace
      ∧ receives
          (devmgr_open 4096 (bytes "/dev/input/event3") (fun _ => ⟨0, none, none⟩) 0).trace ≤ 4 :=
  devmgr_open_receives 4096 (bytes "/dev/input/event3") (fun _ => ⟨0, none, none⟩) 0

/-! ## Descriptors held by the broker -/

theorem held_after_append (a b : List Ev) :
    ∀ acc : List Int, held_after acc (a ++ b) = held_after (held_after acc a) b := by
  induction a with
  | nil => intro acc; rfl
  | cons e t ih =>
    intro acc
    cases e with
    | recvmsg r c => cases c <;> simp [held_after, ih]
    | sendmsg f p => simp [held_after, ih]
    | sys_open p fl fd => simp [held_after, ih]
    | close fd => simp [held_after, ih]

theorem received_append (a b : List Ev) : received (a ++ b) = received a ++ received b := by
  induction a with
  | nil => rfl
  | cons e t ih =>
    cases e with
    | recvmsg r c => cases c <;> simp [received, ih]
    | sendmsg f p => simp [received, ih]
    | sys_open p fl fd => simp [received, ih]
    | close fd => simp [received, ih]

theorem handle_held (devpath : List Nat) (os_open : List Nat → Int × Int) (m : msg)
    (acc : List Int) :
    held_after acc (handle devpath os_open m).1 = acc
      ∧ received (handle devpath os_open m).1 = [] := by
  unfold handle
  split_ifs with h1 h2 h3
  · simp [held_after, received]
  · by_cases hfd : (os_open (cstr m.path)).1 ≥ 0
    · simp [held_after, received, send_msg, hfd]
    · simp [held_after, received, send_msg, hfd]
  · simp [held_after, received, send_msg]
  · simp [held_after, received]

theorem devmgr_loop_held (devpath : List Nat) (os_open : List Nat → Int × Int)
    (inputs : List (Recvmsg msg)) :
    ∀ (b : Bool) (m : msg) (acc : List Int),
      held_after acc (devmgr_loop devpath os_open inputs b m).trace =
        (received (devmgr_loop devpath os_open inputs b m).trace).reverse ++ acc := by
  induction inputs with
  | nil => intro b m acc; cases b <;> simp [devmgr_loop, held_after, received]
  | cons r rest ih =>
    intro b m acc
    cases b with
    | false => simp [devmgr_loop, held_after, received]
    | true =>
      simp only [devmgr_loop]
      split_ifs with hret
      · rcases hh : handle devpath os_open (recv_msg r m).2.2 with ⟨evs, c⟩
        have hk := handle_held devpath os_open (recv_msg r m).2.2
        rw [hh] at hk
        cases c with
        | exit n =>
          cases hc : r.cmsg with
          | none => simp [held_after, received, (hk acc).1, (hk acc).2]
          | some fd => simp [held_after, received, (hk (fd :: acc)).1, (hk acc).2]
        | next running =>
          cases hc : r.cmsg with
          | none =>
            simp [held_after, received, held_after_append, received_append,
              (hk acc).1, (hk acc).2, ih]
          | some fd =>
            simp [held_after, received, held_after_append, received_append,
              (hk (fd :: acc)).1, (hk acc).2, ih]
      · cases hc : r.cmsg with
        | none => simp [held_after, received]
        | some fd => simp [held_after, received]

theorem devmgr_loop_received_none (devpath : List Nat) (os_open : List Nat → Int × Int)
    (inputs : List (Recvmsg msg)) :
    ∀ (b : Bool) (m : msg), (∀ r ∈ inputs, r.cmsg = none) →
      received (devmgr_loop devpath os_open inputs b m).trace = [] := by
  induction inputs with
  | nil => intro b m _; cases b <;> simp [devmgr_loop, received]
  | cons r rest ih =>
    intro b m hall
    have hr : r.cmsg = none := hall r (List.mem_cons_self _ _)
    have hrest : ∀ x ∈ rest, x.cmsg = none := fun x hx => hall x (List.mem_cons_of_mem _ hx)
    cases b with
    | false => simp [devmgr_loop, received]
    | true =>
      simp only [devmgr_loop]
      split_ifs with hret
      · rcases hh : handle devpath os_open (recv_msg r m).2.2 with ⟨evs, c⟩
        have hk := handle_held devpath os_open (recv_msg r m).2.2 []
        rw [hh] at hk
        cases c with
        | exit n => simp [received, hr, hk.2]
        | next running => simp [received, received_append, hr, hk.2, ih running _ hrest]
      · simp [received, hr]

/-- C12, as stated, fails: an Open request that arrives with descriptor 9
attached is served, and when the broker waits for the next request it still
holds descriptor 9, which it never closes. -/
theorem devmgr_run_keeps_received :
    Serving (devmgr_run (bytes "/dev/input/") (fun _ => (3, 0)) ⟨0, []⟩
        [⟨4100, some 9, some ⟨MSG_OPEN, bytes "/dev/input/event3"⟩⟩])
      ∧ held_after [] (devmgr_run (bytes "/dev/input/") (fun _ => (3, 0)) ⟨0, []⟩
        [⟨4100, some 9, some ⟨MSG_OPEN, bytes "/dev/input/event3"⟩⟩]).trace = [9] := by
  decide

/-- C12, amended: when no received message carries a descriptor, then over
any sequence of receives, whatever `open` returns, the broker holds exactly
the descriptors it held on entering the loop. The events of one pass through
the `switch` leave the held descriptors unchanged, because a descriptor
returned by `open` is closed right after the one `sendmsg`, whether or not
the code sent was 0. -/
theorem devmgr_run_held (devpath : List Nat) (os_open : List Nat → Int × Int)
    (msg0 : msg) (inputs : List (Recvmsg msg)) (acc : List Int) :
    ((∀ r ∈ inputs, r.cmsg = none) →
          held_after acc (devmgr_run devpath os_open msg0 inputs).trace = acc)
      ∧ (∀ m : msg, held_after acc (handle devpath os_open m).1 = acc)
      ∧ (∀ m : msg, m.msg_type = MSG_OPEN → cstr devpath <+: cstr m.path →
          (handle devpath os_open m).1 =
            [Ev.sys_open (cstr m.path) open_flags (os_open (cstr m.path)).1,
              send_msg (if (os_open (cstr m.path)).2 ≠ 0 then -1 else (os_open (cstr m.path)).1)
                (Payload.code (os_open (cstr m.path)).2)]
              ++ (if (os_open (cstr m.path)).1 ≥ 0
                  then [Ev.close (os_open (cstr m.path)).1] else [])) := by
  have h := devmgr_loop_held devpath os_open inputs true msg0 acc
  refine ⟨?_, ?_, ?_⟩
  · intro hall
    have hn := devmgr_loop_received_none devpath os_open inputs true msg0 hall
    unfold devmgr_run
    rw [h, hn]
    rfl
  · intro m
    exact (handle_held devpath os_open m acc).1
  · intro m ht hin
    have hz := (strstr_zero_iff _ _).mpr hin
    simp [handle, ht, hz]

/-- Witness for C12 amended: two Open requests without descriptors, the first
on a missing file, leave the broker holding only descriptors 0, 1, 2 and 4. -/
theorem devmgr_run_held_witness :
    held_after [0, 1, 2, 4]
        (devmgr_run (bytes "/dev/input/")
          (fun p => if p = bytes "/dev/input/event3" then (5, 0) else (-1, 2)) ⟨0, []⟩
          [⟨4100, none, some ⟨MSG_OPEN, bytes "/dev/input/nothere"⟩⟩,
           ⟨4100, none, some ⟨MSG_OPEN, bytes "/dev/input/event3"⟩⟩]).trace
      = [0, 1, 2, 4] :=
  (devmgr_run_held (bytes "/dev/input/")
    (fun p => if p = bytes "/dev/input/event3" then (5, 0) else (-1, 2)) ⟨0, []⟩
    [⟨4100, none, some ⟨MSG_OPEN, bytes "/dev/input/nothere"⟩⟩,
     ⟨4100, none, some ⟨MSG_OPEN, bytes "/dev/input/event3"⟩⟩] [0, 1, 2, 4]).1
    (by decide)

/-! ## Shutdown: `devmgr_finish` and the End request -/

/-- C13: `devmgr_finish` makes four calls in this order: one `sendmsg` with the
End request and no descriptor, one `recvmsg`, `waitpid` on the broker, `close`
of its endpoint. A broker that is Serving and receives that request sends one
message with no payload and no descriptor and exits with status 0 without
another `recvmsg`, whatever else is queued on the channel; the client's one
receive of that message returns 0, and it makes that one receive whatever it returns. -/
theorem devmgr_finish_ends_session (PATH_MAX : Nat) (devpath : List Nat)
    (os_open : List Nat → Int × Int) (install : Int → Nat) (msg0 : msg)
    (pre rest : List (Recvmsg msg)) (sock pid : Int)
    (hserving : Serving (devmgr_run devpath os_open msg0 pre)) :
    devmgr_finish PATH_MAX sock pid (deliver install [(none, Payload.nothing)] 0) =
        [CEv.io (Ev.sendmsg none (Payload.request ⟨MSG_END, List.replicate PATH_MAX 0⟩)),
         CEv.io (Ev.recvmsg 0 none), CEv.waitpid pid, CEv.io (Ev.close sock)]
      ∧ devmgr_run devpath os_open msg0
          (pre ++ ⟨((4 + PATH_MAX : Nat) : Int), none, some (end_request PATH_MAX)⟩ :: rest) =
          ⟨(devmgr_run devpath os_open msg0 pre).trace
              ++ [Ev.recvmsg ((4 + PATH_MAX : Nat) : Int) none, Ev.sendmsg none Payload.nothing],
            some 0⟩
      ∧ sent (handle devpath os_open (end_request PATH_MAX)).1 = [(none, Payload.nothing)]
      ∧ (∀ r : Recvmsg Int, devmgr_finish PATH_MAX sock pid r =
          [CEv.io (Ev.sendmsg none (Payload.request (end_request PATH_MAX))),
           CEv.io (Ev.recvmsg r.ret none), CEv.waitpid pid, CEv.io (Ev.close sock)])
      ∧ receives (devmgr_run devpath os_open msg0
          (pre ++ ⟨((4 + PATH_MAX : Nat) : Int), none, some (end_request PATH_MAX)⟩ :: rest)).trace
          = receives (devmgr_run devpath os_open msg0 pre).trace + 1 := by
  have hpos : (0 : Int) < 4 + (PATH_MAX : Int) := by omega
  have hrun : devmgr_run devpath os_open msg0
      (pre ++ ⟨((4 + PATH_MAX : Nat) : Int), none, some (end_request PATH_MAX)⟩ :: rest) =
      ⟨(devmgr_run devpath os_open msg0 pre).trace
          ++ [Ev.recvmsg ((4 + PATH_MAX : Nat) : Int) none, Ev.sendmsg none Payload.nothing],
        some 0⟩ := by
    rw [devmgr_run_step devpath os_open msg0 pre rest _ hserving]
    simp [devmgr_loop, recv_msg, hpos, handle, end_request, MSG_OPEN, MSG_END, send_msg,
      devmgr_loop_stopped]
  have hrec : ∀ a b : List Ev, receives (a ++ b) = receives a + receives b := by
    intro a b
    induction a with
    | nil => simp [receives]
    | cons e t ih =>
      cases e with
      | recvmsg r c => simp [receives, ih]; omega
      | sendmsg f p => simp [receives, ih]
      | sys_open p fl fd => simp [receives, ih]
      | close fd => simp [receives, ih]
  refine ⟨?_, hrun, ?_, ?_, ?_⟩
  · simp [devmgr_finish, deliver, recv_msg_null, send_msg, end_request]
  · simp [handle, end_request, MSG_OPEN, MSG_END, send_msg, sent]
  · intro r
    simp [devmgr_finish, recv_msg_null, send_msg]
  · rw [hrun, hrec]
    simp [receives]

/-- Witness for C13: the End request as the first message, with prefix
`/dev/input/` and more messages queued behind it. -/
theorem devmgr_finish_ends_session_witness :
    devmgr_run (bytes "/dev/input/") (fun _ => (3, 0)) ⟨0, []⟩
        ([] ++ ⟨((4 + 4096 : Nat) : Int), none, some (end_request 4096)⟩ ::
          [⟨4100, none, some ⟨MSG_OPEN, bytes "/dev/input/event3"⟩⟩]) =
      ⟨(devmgr_run (bytes "/dev/input/") (fun _ => (3, 0)) ⟨0, []⟩ []).trace
          ++ [Ev.recvmsg ((4 + 4096 : Nat) : Int) none, Ev.sendmsg none Payload.nothing],
        some 0⟩ :=
  (devmgr_finish_ends_session 4096 (bytes "/dev/input/") (fun _ => (3, 0)) Int.toNat ⟨0, []⟩
    [] [⟨4100, none, some ⟨MSG_OPEN, bytes "/dev/input/event3"⟩⟩] 3 4242 (by decide)).2.1

/-! ## Clearing old keys in the event loop -/

/-- When the test of the event loop holds, at least `timeout` seconds have
passed since the last key: keys are not cleared early. -/
theorem keys_expired_sound (state : wsk_state) (now : timespec)
    (h5 : 0 ≤ state.last_key.tv_sec) (h6 : state.last_key.tv_sec < 4611686018427387904)
    (h7 : 0 ≤ state.timeout) (h8 : state.timeout < 2147483648)
    (hexp : keys_expired state now = true) :
    state.timeout * 1000000000 ≤ elapsed_ns state.last_key now := by
  unfold keys_expired at hexp
  unfold elapsed_ns
  have hw : wrap64 (state.last_key.tv_sec + state.timeout)
      = state.last_key.tv_sec + state.timeout := by
    unfold wrap64; omega
  rw [hw] at hexp
  have hh := of_decide_eq_true hexp
  omega

/-- C14 fails on the code: with `timeout = 1`, the last key at 10.9 s and `now`
at 15.1 s, 4.2 s have passed, yet the test of the event loop is false because
`now.tv_nsec < last_key.tv_nsec`, and the key list is left as it was. -/
theorem clear_old_keys_misses :
    1 * 1000000000 ≤ elapsed_ns ⟨10, 900000000⟩ ⟨15, 100000000⟩
      ∧ keys_expired ⟨[65], ⟨10, 900000000⟩, 1⟩ ⟨15, 100000000⟩ = false
      ∧ (clear_old_keys ⟨[65], ⟨10, 900000000⟩, 1⟩ ⟨15, 100000000⟩).keys = [65] := by
  decide

end Wshowkeys
